import Mathlib

/-!
Verification of the filler-removal backend (`backend/app.py`).

The development shallowly embeds the pure logic of the service:
  * `simple_regex_fallback` — the regex/whitespace fallback classifier;
  * `detectLoop` / `detect_fillers` — the primary POS-tag classification loop
    (the external NLTK tokenizer+tagger is a parameter: `some tagged` when it
    succeeds, `none` when it raises);
  * `apply_script_correction` — the Devanagari-to-Latin script normalizer;
  * `process_text` — the `/process` endpoint handler (the external
    detokenizer is a parameter `recon`).

Python string primitives used by the code are modelled on `List Char`:
`str.lower`, `str.strip(chars)` (which strips from BOTH ends),
`str.split()` (whitespace split dropping empty pieces) and `str.isalpha`.
-/

namespace MedoAp2

/-- Model of Python `str.lower` (ASCII case mapping; the inputs of interest
are ASCII or Devanagari, where Python lowercasing is also the identity). -/
def pyLower (s : String) : String :=
  String.mk (s.data.map Char.toLower)

/-- Model of Python `str.isalpha`: non-empty and every character alphabetic. -/
def pyIsAlphaStr (s : String) : Bool :=
  !s.data.isEmpty && s.data.all Char.isAlpha

/-- Model of Python `str.strip(chars)`: removes characters of `chars` from
BOTH the leading and the trailing end of the string. -/
def stripBoth (chars : List Char) (s : String) : String :=
  String.mk (((s.data.dropWhile chars.contains).reverse.dropWhile chars.contains).reverse)

/-- Strip characters of `chars` from the trailing end only.  This is NOT what
Python `str.strip` does; it is the operation the specification's words
describe ("strips trailing punctuation"). -/
def stripTrailing (chars : List Char) (s : String) : String :=
  String.mk ((s.data.reverse.dropWhile chars.contains).reverse)

/-- Auxiliary for `pySplitWs`: split a character list at whitespace. -/
def splitWsAux : List Char → List Char → List String
  | [], acc => [String.mk acc.reverse]
  | c :: rest, acc =>
    if c.isWhitespace then String.mk acc.reverse :: splitWsAux rest []
    else splitWsAux rest (c :: acc)

/-- Model of Python `str.split()` with no argument: split on whitespace and
drop empty pieces (hence also leading/trailing whitespace). -/
def pySplitWs (s : String) : List String :=
  (splitWsAux s.data []).filter (fun t => t != "")

/-- The hardcoded fallback filler vocabulary of `simple_regex_fallback`. -/
def fallbackVocab : List String := ["um", "uh", "hmm", "ah", "er"]

/-- The comparison key of the fallback classifier:
`word.lower().strip(",.!?")`. -/
def fbKey (word : String) : String :=
  stripBoth [',', '.', '!', '?'] (pyLower word)

/-- The loop of `simple_regex_fallback` (lines 48-64 of `app.py`).  State
`last` models `last_word` (`none` = Python `None`); the guard `!(l == "")`
models the truthiness test `last_word and ...`. -/
def fallbackLoop : Option String → List String → List String × List String
  | _, [] => ([], [])
  | last, word :: rest =>
    let lower := fbKey word
    let isFiller : Bool :=
      if fallbackVocab.contains lower then true
      else
        match last with
        | some l => !(l == "") && (l == lower && pyIsAlphaStr lower)
        | none => false
    if isFiller then
      let r := fallbackLoop last rest
      (r.1, word :: r.2)
    else
      let r := fallbackLoop (some lower) rest
      (word :: r.1, r.2)

/-- Embedding of `simple_regex_fallback` (lines 39-66): whitespace
tokenization, then the classification loop starting from `last_word = None`.
Returns `(clean_tokens, fillers)`. -/
def simple_regex_fallback (text : String) : List String × List String :=
  fallbackLoop none (pySplitWs text)

/-- The loop of `detect_fillers` (lines 80-101 of `app.py`) over an already
tagged token sequence.  State `last` models `last_token`; the guard
`!(l == "")` models the truthiness test `last_token and ...`. -/
def detectLoop : Option String → List (String × String) → List String × List String
  | _, [] => ([], [])
  | last, (word, tag) :: rest =>
    let term := pyLower word
    let isFiller : Bool :=
      if tag == "UH" then true
      else
        match last with
        | some l => !(l == "") && (l == term && pyIsAlphaStr term)
        | none => false
    if isFiller then
      let r := detectLoop last rest
      (r.1, word :: r.2)
    else
      let r := detectLoop (some term) rest
      (word :: r.1, r.2)

/-- Embedding of `detect_fillers` (lines 68-105).  The external NLTK
tokenize+tag step is a parameter: `some tagged` is its output when it
succeeds; `none` means it raised, in which case the `except` branch returns
`simple_regex_fallback(text)`. -/
def detect_fillers (tagged? : Option (List (String × String))) (text : String) :
    List String × List String :=
  match tagged? with
  | some tagged => detectLoop none tagged
  | none => simple_regex_fallback text

/-- The `SCRIPT_CORRECTION_MAP` dictionary (lines 108-143), as an
association list in source order. -/
def SCRIPT_CORRECTION_MAP : List (String × String) :=
  [("स्टॉप", "stop"), ("रुको", "stop"), ("हेलो", "hello"), ("हाय", "hi"),
   ("ओके", "ok"), ("ठीक", "ok"), ("हैलो", "hello"), ("गुडबाय", "goodbye"),
   ("बाय", "bye"), ("येस", "yes"), ("हां", "yes"), ("नो", "no"),
   ("नहीं", "no"), ("नाम", "name"), ("मेरा", "my"), ("माय", "my"),
   ("नेम", "name"), ("इज़", "is"), ("इज", "is"), ("अ", "a"), ("ऐ", "a"),
   ("एन", "an"), ("द", "the"), ("व्हाट", "what"), ("व्हेन", "when"),
   ("व्हेर", "where"), ("हाउ", "how"), ("यू", "you"), ("आर", "are"),
   ("एम", "am"), ("आई", "i"), ("प्ले", "play"), ("पॉज़", "pause"),
   ("कॉल", "call")]

/-- The punctuation set of `token.strip(".,!?।")` in
`apply_script_correction` (line 159): Latin sentence punctuation and the
Devanagari danda. -/
def scriptStripChars : List Char := ['.', ',', '!', '?', '।']

/-- One iteration of the `apply_script_correction` token loop (lines
157-164): look up the both-ends-stripped token; on a hit the whole token is
replaced by the mapped value, otherwise it is kept. -/
def correctToken (token : String) : String :=
  match SCRIPT_CORRECTION_MAP.lookup (stripBoth scriptStripChars token) with
  | some v => v
  | none => token

/-- Whether the `apply_script_correction` loop sets `normalization_occurred`
for a given token (line 160's hit test). -/
def tokenHit (token : String) : Bool :=
  (SCRIPT_CORRECTION_MAP.lookup (stripBoth scriptStripChars token)).isSome

/-- Embedding of `apply_script_correction` (lines 145-169).  The loop
accumulating `corrected_tokens` and `normalization_occurred` is rendered as
a map and an existence test over the token list, which compute the same
final values. -/
def apply_script_correction (text context_lang : String) : String :=
  if context_lang != "en-IN" then text
  else
    let tokens := pySplitWs text
    let corrected_tokens := tokens.map correctToken
    let normalization_occurred := tokens.any tokenHit
    if normalization_occurred then String.intercalate " " corrected_tokens
    else text

/-- A JSON value appearing in a response body of this service: a string or
an array of strings. -/
inductive JsonVal where
  | s (v : String)
  | arr (vs : List String)
deriving DecidableEq

/-- The result of the handler: an HTTP status code and a JSON object,
rendered as an ordered list of key/value pairs so that the key NAMES of the
two response shapes are part of the model. -/
abbrev ProcResult := Nat × List (String × JsonVal)

/-- The value of the request's `text` field: absent from the JSON body,
JSON `null`, or a string. -/
inductive TextField where
  | absent
  | null
  | str (s : String)

/-- Model of `data.get('text', '')` (line 174): an absent field yields the
default `''`, a `null` field yields Python `None`, a string yields itself. -/
def textValue : TextField → Option String
  | .absent => some ""
  | .null => none
  | .str s => some s

/-- Python truthiness test `not text` (line 179) on the extracted value:
true exactly for `None` and the empty string. -/
def textFalsy : Option String → Bool
  | none => true
  | some s => s == ""

/-- Embedding of the `/process` handler `process_text` (lines 171-222).
External capabilities are parameters: `tagger` is the NLTK tokenize+tag
step applied to the normalized text (`none` when it raises, triggering the
fallback inside `detect_fillers`), and `recon` is the reconstruction step
(detokenizer, or space-join when the detokenizer is unavailable; both are
total, so the outer `except` branch returning status 500 is unreachable
and not modelled).  Status 200 is returned with the body. -/
def process_text (tagger : String → Option (List (String × String)))
    (recon : List String → String) (textField : TextField)
    (language action : String) : ProcResult :=
  let textOpt := textValue textField
  if textFalsy textOpt then
    (200, [("processed_text", JsonVal.s ""), ("fillers", JsonVal.arr [])])
  else
    let text0 := textOpt.getD ""
    let text := apply_script_correction text0 language
    let cf := detect_fillers (tagger text) text
    let reconstructed := recon cf.1
    let processed_text :=
      if action == "remove" then reconstructed
      else if action == "mark" then reconstructed
      else text
    (200, [("processed_text", JsonVal.s processed_text),
           ("fillers_detected", JsonVal.arr cf.2),
           ("original_text", JsonVal.s text)])

/-! Claim-side definitions: these follow the WORDING of the specification
claims (not the source) and are compared against the source embeddings. -/

/-- The tokens of `tokens` whose paired flag is `true`, in order. -/
def selectTrue {α : Type} (tokens : List α) (flags : List Bool) : List α :=
  ((tokens.zip flags).filter (fun p => p.2)).map (fun p => p.1)

/-- The tokens of `tokens` whose paired flag is `false`, in order. -/
def selectFalse {α : Type} (tokens : List α) (flags : List Bool) : List α :=
  ((tokens.zip flags).filter (fun p => !p.2)).map (fun p => p.1)

/-- The filler condition of claim C1, read off its words: the tag is the
interjection category `UH`, or the lowercase form equals
`last_content_term` and consists entirely of alphabetic characters. -/
def claimFlagPrimary (last : Option String) (word tag : String) : Bool :=
  tag == "UH" || (some (pyLower word) == last && pyIsAlphaStr (pyLower word))

/-- The filler flags of claim C1 for a tagged sequence, left to right, with
`last_content_term` initialized to `none` by the caller and updated only
when a token is classified content. -/
def claimFlagsPrimary : Option String → List (String × String) → List Bool
  | _, [] => []
  | last, (w, t) :: rest =>
    let f := claimFlagPrimary last w t
    f :: claimFlagsPrimary (if f then last else some (pyLower w)) rest

/-- The comparison key the words of claim C5 describe: lowercase the token,
then strip TRAILING punctuation from `,.!?` (Python `str.strip` in the code
strips both ends, so this differs from `fbKey`). -/
def fbKeyTrailing (word : String) : String :=
  stripTrailing [',', '.', '!', '?'] (pyLower word)

/-- The filler condition of claim C5, read off its words, over an arbitrary
comparison-key function: the key is in the fallback vocabulary, or equals
the previous content token's key and is entirely alphabetic. -/
def claimFlagFallback (key : String → String) (last : Option String)
    (word : String) : Bool :=
  fallbackVocab.contains (key word) ||
    (some (key word) == last && pyIsAlphaStr (key word))

/-- The filler flags of claim C5 for a whitespace-token sequence, with the
previous-content-key state updated only on content tokens. -/
def claimFlagsFallback (key : String → String) :
    Option String → List String → List Bool
  | _, [] => []
  | last, w :: rest =>
    let f := claimFlagFallback key last w
    f :: claimFlagsFallback key (if f then last else some (key w)) rest

/-- The fallback classifier as claim C5 describes it: whitespace-split the
text, classify each token by `claimFlagsFallback`, and emit original
surface forms into the two output lists. -/
def claimFallbackClassifier (key : String → String) (text : String) :
    List String × List String :=
  (selectFalse (pySplitWs text) (claimFlagsFallback key none (pySplitWs text)),
   selectTrue (pySplitWs text) (claimFlagsFallback key none (pySplitWs text)))

/-- The script normalizer as claim C3 describes it, over an arbitrary
key-forming function: split on whitespace, replace a whole token by the
mapped value when its key is in the map, keep it otherwise (and, per C4,
rejoin with single spaces only when a substitution occurred). -/
def claimScriptNormalizer (key : String → String) (text context_lang : String) :
    String :=
  if context_lang != "en-IN" then text
  else
    let tokens := pySplitWs text
    let corrected := tokens.map (fun token =>
      match SCRIPT_CORRECTION_MAP.lookup (key token) with
      | some v => v
      | none => token)
    if tokens.any (fun token => (SCRIPT_CORRECTION_MAP.lookup (key token)).isSome)
    then String.intercalate " " corrected
    else text

/-- No tag of the tagged sequence is the interjection tag `UH` (the
"no interjection-classified tokens" condition of claim C9). -/
def tagsNotUH (tagged : List (String × String)) : Bool :=
  tagged.all (fun p => p.2 != "UH")

/-- No two adjacent tokens are case-insensitive repeats of an alphabetic
word (the "no adjacent repeated words" condition of claim C9). -/
def noAdjacentRepeat : List (String × String) → Bool
  | [] => true
  | [_] => true
  | a :: b :: rest =>
    !(pyLower b.1 == pyLower a.1 && pyIsAlphaStr (pyLower b.1)) &&
      noAdjacentRepeat (b :: rest)

/-- The head token of `tagged` is not flagged as a repetition of the state
`last` (invariant used to propagate `noAdjacentRepeat` through the loop). -/
def lastOkFor (last : Option String) : List (String × String) → Bool
  | [] => true
  | (w, _) :: _ => !(some (pyLower w) == last && pyIsAlphaStr (pyLower w))

/-- The `processed_text` field of a handler result. -/
def processedOf (r : ProcResult) : String :=
  match r.2.lookup "processed_text" with
  | some (JsonVal.s v) => v
  | _ => ""

/-! Helper lemmas. -/

lemma pyIsAlphaStr_empty : pyIsAlphaStr "" = false := rfl

lemma some_beq_none (a : String) : (some a == (none : Option String)) = false := rfl

lemma some_beq_some (a b : String) : (some a == some b) = (a == b) := rfl

/-- The `is_filler` computation of both classification loops (an
interjection/vocabulary test `c`, then the repetition test against `last`
with the Python truthiness guard) equals the claim-style formulation
`c || (key = last ∧ alphabetic)`. -/
lemma flagStep_eq (c : Bool) (k : String) (last : Option String) :
    (if c then true
     else
       match last with
       | some l => !(l == "") && (l == k && pyIsAlphaStr k)
       | none => false) =
      (c || (some k == last && pyIsAlphaStr k)) := by
  cases c with
  | true => rfl
  | false =>
    cases last with
    | none => rfl
    | some l =>
      simp only [if_false, Bool.false_or, some_beq_some]
      by_cases hl : l = ""
      · subst hl
        by_cases hk : k = ""
        · subst hk
          simp [pyIsAlphaStr_empty]
        · have h2 : (k == ("" : String)) = false := beq_eq_false_iff_ne.mpr hk
          simp [h2]
      · have hne : (l == "") = false := beq_eq_false_iff_ne.mpr hl
        by_cases hlk : l = k
        · subst hlk
          simp [hne]
        · have h1 : (l == k) = false := beq_eq_false_iff_ne.mpr hlk
          have h2 : (k == l) = false := beq_eq_false_iff_ne.mpr (Ne.symm hlk)
          simp [hne, h1, h2]

/-- The primary loop's filler test equals the claim C1 condition. -/
lemma codeFlag_eq_claimFlagPrimary (last : Option String) (w t : String) :
    (if t == "UH" then true
     else
       match last with
       | some l => !(l == "") && (l == pyLower w && pyIsAlphaStr (pyLower w))
       | none => false) = claimFlagPrimary last w t :=
  flagStep_eq (t == "UH") (pyLower w) last

/-- The fallback loop's filler test equals the claim C5 condition with the
code's both-ends-stripped key. -/
lemma codeFlag_eq_claimFlagFallback (last : Option String) (w : String) :
    (if fallbackVocab.contains (fbKey w) then true
     else
       match last with
       | some l => !(l == "") && (l == fbKey w && pyIsAlphaStr (fbKey w))
       | none => false) = claimFlagFallback fbKey last w :=
  flagStep_eq (fallbackVocab.contains (fbKey w)) (fbKey w) last

lemma selectFalse_cons_false {α : Type} (x : α) (xs : List α) (fs : List Bool) :
    selectFalse (x :: xs) (false :: fs) = x :: selectFalse xs fs := by
  simp [selectFalse]

lemma selectFalse_cons_true {α : Type} (x : α) (xs : List α) (fs : List Bool) :
    selectFalse (x :: xs) (true :: fs) = selectFalse xs fs := by
  simp [selectFalse]

lemma selectTrue_cons_false {α : Type} (x : α) (xs : List α) (fs : List Bool) :
    selectTrue (x :: xs) (false :: fs) = selectTrue xs fs := by
  simp [selectTrue]

lemma selectTrue_cons_true {α : Type} (x : α) (xs : List α) (fs : List Bool) :
    selectTrue (x :: xs) (true :: fs) = x :: selectTrue xs fs := by
  simp [selectTrue]

/-- The primary classification loop computes exactly the partition of the
token sequence by the claim C1 flags, for every initial state. -/
lemma detectLoop_eq_claim (tagged : List (String × String)) :
    ∀ last, detectLoop last tagged =
      (selectFalse (tagged.map Prod.fst) (claimFlagsPrimary last tagged),
       selectTrue (tagged.map Prod.fst) (claimFlagsPrimary last tagged)) := by
  induction tagged with
  | nil => intro last; rfl
  | cons p rest ih =>
    intro last
    obtain ⟨w, t⟩ := p
    simp only [detectLoop, claimFlagsPrimary, List.map_cons]
    rw [codeFlag_eq_claimFlagPrimary]
    cases hf : claimFlagPrimary last w t with
    | false =>
      simp only [Bool.false_eq_true, if_false, if_neg, ih (some (pyLower w)),
        selectFalse_cons_false, selectTrue_cons_false]
    | true =>
      simp only [if_true, ih last, selectFalse_cons_true, selectTrue_cons_true]

/-- The fallback classification loop computes exactly the partition of the
token sequence by the claim C5 flags (with the code's key), for every
initial state. -/
lemma fallbackLoop_eq_claim (tokens : List String) :
    ∀ last, fallbackLoop last tokens =
      (selectFalse tokens (claimFlagsFallback fbKey last tokens),
       selectTrue tokens (claimFlagsFallback fbKey last tokens)) := by
  induction tokens with
  | nil => intro last; rfl
  | cons w rest ih =>
    intro last
    simp only [fallbackLoop, claimFlagsFallback]
    rw [codeFlag_eq_claimFlagFallback]
    cases hf : claimFlagFallback fbKey last w with
    | false =>
      simp only [Bool.false_eq_true, if_false, if_neg, ih (some (fbKey w)),
        selectFalse_cons_false, selectTrue_cons_false]
    | true =>
      simp only [if_true, ih last, selectFalse_cons_true, selectTrue_cons_true]

/-- The primary loop classifies each input token exactly once: the output
list lengths sum to the input length. -/
lemma detectLoop_length (tagged : List (String × String)) :
    ∀ last, (detectLoop last tagged).1.length + (detectLoop last tagged).2.length
      = tagged.length := by
  induction tagged with
  | nil => intro last; rfl
  | cons p rest ih =>
    intro last
    obtain ⟨w, t⟩ := p
    simp only [detectLoop, List.length_cons]
    rw [codeFlag_eq_claimFlagPrimary]
    cases hf : claimFlagPrimary last w t with
    | true =>
      simp only [if_true]
      have := ih last
      simp only [List.length_cons]
      omega
    | false =>
      simp only [Bool.false_eq_true, if_false, if_neg]
      have := ih (some (pyLower w))
      simp only [List.length_cons]
      omega

/-- Both output lists of the primary loop are sublists of the input token
surface sequence (order preserved, no token invented). -/
lemma detectLoop_sublists (tagged : List (String × String)) :
    ∀ last, List.Sublist (detectLoop last tagged).1 (tagged.map Prod.fst) ∧
      List.Sublist (detectLoop last tagged).2 (tagged.map Prod.fst) := by
  induction tagged with
  | nil => intro last; exact ⟨List.Sublist.refl _, List.Sublist.refl _⟩
  | cons p rest ih =>
    intro last
    obtain ⟨w, t⟩ := p
    simp only [detectLoop, List.map_cons]
    rw [codeFlag_eq_claimFlagPrimary]
    cases hf : claimFlagPrimary last w t with
    | true =>
      simp only [if_true]
      exact ⟨List.Sublist.cons w (ih last).1, List.Sublist.cons₂ w (ih last).2⟩
    | false =>
      simp only [Bool.false_eq_true, if_false, if_neg]
      exact ⟨List.Sublist.cons₂ w (ih (some (pyLower w))).1,
        List.Sublist.cons w (ih (some (pyLower w))).2⟩

/-- The fallback loop classifies each input token exactly once. -/
lemma fallbackLoop_length (tokens : List String) :
    ∀ last, (fallbackLoop last tokens).1.length + (fallbackLoop last tokens).2.length
      = tokens.length := by
  induction tokens with
  | nil => intro last; rfl
  | cons w rest ih =>
    intro last
    simp only [fallbackLoop, List.length_cons]
    rw [codeFlag_eq_claimFlagFallback]
    cases hf : claimFlagFallback fbKey last w with
    | true =>
      simp only [if_true]
      have := ih last
      simp only [List.length_cons]
      omega
    | false =>
      simp only [Bool.false_eq_true, if_false, if_neg]
      have := ih (some (fbKey w))
      simp only [List.length_cons]
      omega

/-- Both output lists of the fallback loop are sublists of the input token
sequence. -/
lemma fallbackLoop_sublists (tokens : List String) :
    ∀ last, List.Sublist (fallbackLoop last tokens).1 tokens ∧
      List.Sublist (fallbackLoop last tokens).2 tokens := by
  induction tokens with
  | nil => intro last; exact ⟨List.Sublist.refl _, List.Sublist.refl _⟩
  | cons w rest ih =>
    intro last
    simp only [fallbackLoop]
    rw [codeFlag_eq_claimFlagFallback]
    cases hf : claimFlagFallback fbKey last w with
    | true =>
      simp only [if_true]
      exact ⟨List.Sublist.cons w (ih last).1, List.Sublist.cons₂ w (ih last).2⟩
    | false =>
      simp only [Bool.false_eq_true, if_false, if_neg]
      exact ⟨List.Sublist.cons₂ w (ih (some (fbKey w))).1,
        List.Sublist.cons w (ih (some (fbKey w))).2⟩

lemma lastOkFor_none (tagged : List (String × String)) :
    lastOkFor none tagged = true := by
  cases tagged with
  | nil => rfl
  | cons p rest =>
    obtain ⟨w, t⟩ := p
    rfl

/-- If no tag is `UH`, no two adjacent tokens repeat, and the head does not
repeat the incoming state, the primary loop removes nothing: it emits every
token as content, in order, and finds no fillers. -/
lemma noFiller_detectLoop (tagged : List (String × String)) :
    ∀ last, tagsNotUH tagged = true → noAdjacentRepeat tagged = true →
      lastOkFor last tagged = true →
      detectLoop last tagged = (tagged.map Prod.fst, []) := by
  induction tagged with
  | nil => intro last _ _ _; rfl
  | cons p rest ih =>
    intro last hUH hrep hlast
    obtain ⟨w, t⟩ := p
    have hUHs := hUH
    simp only [tagsNotUH, List.all_cons, Bool.and_eq_true] at hUHs
    have ht : (t == "UH") = false := by
      have h1 := hUHs.1
      simp only [bne, Bool.not_eq_true'] at h1
      exact h1
    have hx : (some (pyLower w) == last && pyIsAlphaStr (pyLower w)) = false := by
      have h1 := hlast
      simp only [lastOkFor, Bool.not_eq_true'] at h1
      exact h1
    simp only [detectLoop]
    rw [codeFlag_eq_claimFlagPrimary]
    have hflag : claimFlagPrimary last w t = false := by
      simp only [claimFlagPrimary, ht, hx, Bool.or_self, Bool.false_or]
    rw [hflag]
    simp only [Bool.false_eq_true, if_false, List.map_cons]
    have hrest : detectLoop (some (pyLower w)) rest = (rest.map Prod.fst, []) := by
      apply ih
      · exact hUHs.2
      · cases rest with
        | nil => rfl
        | cons q rs =>
          simp only [noAdjacentRepeat, Bool.and_eq_true] at hrep
          exact hrep.2
      · cases rest with
        | nil => rfl
        | cons q rs =>
          obtain ⟨w2, t2⟩ := q
          simp only [noAdjacentRepeat, Bool.and_eq_true] at hrep
          simp only [lastOkFor, some_beq_some]
          exact hrep.1
    rw [hrest]

/-! Claim theorems. -/

/-- C1: in the primary classification path, processed left to right with
`last_content_term` initialized to none, a token is classified filler iff
its tag is `UH` or its lowercase form equals `last_content_term` and is
entirely alphabetic; the state advances only on content tokens (this is the
`claimFlagsPrimary` recursion), and the first token's flag is exactly the
interjection test. -/
theorem C1_primary_classifier_matches_claim :
    ∀ tagged : List (String × String),
      (detectLoop none tagged =
        (selectFalse (tagged.map Prod.fst) (claimFlagsPrimary none tagged),
         selectTrue (tagged.map Prod.fst) (claimFlagsPrimary none tagged))) ∧
      ∀ w t rest, (claimFlagsPrimary none ((w, t) :: rest)).head? = some (t == "UH") := by
  intro tagged
  refine ⟨detectLoop_eq_claim tagged none, ?_⟩
  intro w t rest
  simp only [claimFlagsPrimary, claimFlagPrimary, some_beq_none, Bool.false_and, Bool.or_false,
    List.head?_cons]

/-- C2: in both classification paths every token is classified as exactly
one of content or filler: the output list lengths sum to the number of
input tokens and each output list is an order-preserving sublist of the
input token sequence. -/
theorem C2_classification_partitions_tokens :
    ∀ (tagged : List (String × String)) (text : String),
      ((detectLoop none tagged).1.length + (detectLoop none tagged).2.length
        = tagged.length) ∧
      List.Sublist (detectLoop none tagged).1 (tagged.map Prod.fst) ∧
      List.Sublist (detectLoop none tagged).2 (tagged.map Prod.fst) ∧
      ((simple_regex_fallback text).1.length + (simple_regex_fallback text).2.length
        = (pySplitWs text).length) ∧
      List.Sublist (simple_regex_fallback text).1 (pySplitWs text) ∧
      List.Sublist (simple_regex_fallback text).2 (pySplitWs text) := by
  intro tagged text
  exact ⟨detectLoop_length tagged none, (detectLoop_sublists tagged none).1,
    (detectLoop_sublists tagged none).2, fallbackLoop_length (pySplitWs text) none,
    (fallbackLoop_sublists (pySplitWs text) none).1,
    (fallbackLoop_sublists (pySplitWs text) none).2⟩

/-- C3 counterexample: the claim says the lookup key strips TRAILING
punctuation, but `token.strip(".,!?।")` strips both ends, so the token
`!स्टॉप` (leading bang) is corrected to `stop` by the code while the
claim's trailing-only key leaves it unchanged. -/
theorem C3_counterexample_leading_punctuation :
    apply_script_correction "!स्टॉप" "en-IN" = "stop" ∧
    claimScriptNormalizer (stripTrailing scriptStripChars) "!स्टॉप" "en-IN" = "!स्टॉप" ∧
    ("stop" : String) ≠ "!स्टॉप" :=
  ⟨by decide, by decide, by decide⟩

/-- C3 amended: as claim C3 but with the key formed by stripping the
punctuation set from BOTH the leading and the trailing end of the token
(Python `str.strip` semantics); with this key the normalizer is exactly the
claimed per-token replacement. -/
theorem C3_script_normalizer_amended :
    ∀ text context_lang : String,
      apply_script_correction text context_lang
        = claimScriptNormalizer (stripBoth scriptStripChars) text context_lang := by
  intro text context_lang
  rfl

/-- C4: `apply_script_correction` returns its input unchanged when the
language context is not `en-IN` or when no token's stripped key is in the
map, and rejoins the corrected tokens with single spaces when some
substitution occurred. -/
theorem C4_no_substitution_returns_input :
    ∀ text context_lang : String,
      (context_lang ≠ "en-IN" → apply_script_correction text context_lang = text) ∧
      ((∀ t ∈ pySplitWs text, tokenHit t = false) →
        apply_script_correction text context_lang = text) ∧
      (context_lang = "en-IN" → (∃ t ∈ pySplitWs text, tokenHit t = true) →
        apply_script_correction text context_lang
          = String.intercalate " " ((pySplitWs text).map correctToken)) := by
  intro text lang
  refine ⟨?_, ?_, ?_⟩
  · intro h
    simp [apply_script_correction, bne_iff_ne, h]
  · intro h
    by_cases hl : lang = "en-IN"
    · subst hl
      have hany : (pySplitWs text).any tokenHit = false := by
        rw [List.any_eq_false]
        intro t ht
        simp [h t ht]
      simp [apply_script_correction, hany]
    · simp [apply_script_correction, bne_iff_ne, hl]
  · intro hl hex
    subst hl
    have hany : (pySplitWs text).any tokenHit = true := by
      rw [List.any_eq_true]
      obtain ⟨t, ht, hhit⟩ := hex
      exact ⟨t, ht, hhit⟩
    simp [apply_script_correction, hany]

/-- C4 witness: the three branches at concrete inputs. -/
theorem C4_witness :
    apply_script_correction "bonjour" "fr" = "bonjour" ∧
    apply_script_correction "hello there" "en-IN" = "hello there" ∧
    apply_script_correction "स्टॉप now" "en-IN"
      = String.intercalate " " ((pySplitWs "स्टॉप now").map correctToken) :=
  ⟨(C4_no_substitution_returns_input "bonjour" "fr").1 (by decide),
   (C4_no_substitution_returns_input "hello there" "en-IN").2.1 (by decide),
   (C4_no_substitution_returns_input "स्टॉप now" "en-IN").2.2 rfl
     ⟨"स्टॉप", by decide, by decide⟩⟩

/-- C5 counterexample: the claim says the fallback comparison key strips
TRAILING punctuation from `,.!?`, but Python `str.strip` strips both ends:
on `,um hi` the code keys `,um` as `um` and flags it as a vocabulary
filler, while the claim's trailing-only key `,um` is not in the vocabulary
and would be content. -/
theorem C5_counterexample_leading_punctuation :
    simple_regex_fallback ",um hi" = (["hi"], [",um"]) ∧
    claimFallbackClassifier fbKeyTrailing ",um hi" = ([",um", "hi"], []) ∧
    ((["hi"], [",um"]) : List String × List String) ≠ ([",um", "hi"], []) :=
  ⟨by decide, by decide, by decide⟩

/-- C5 amended: as claim C5 but with the comparison key obtained by
lowercasing and stripping punctuation from `,.!?` at BOTH ends of the token
(Python `str.strip` semantics); with this key the fallback classifier is
exactly the claimed surface-preserving classification. -/
theorem C5_fallback_classifier_amended :
    ∀ text : String, simple_regex_fallback text = claimFallbackClassifier fbKey text := by
  intro text
  exact fallbackLoop_eq_claim (pySplitWs text) none

/-- C6: the fallback classifier is a total function (so every input,
including the empty string, yields a valid partition of its tokens), and
when the primary tagging step raises, `detect_fillers` returns exactly the
fallback classifier's result for the same text. -/
theorem C6_fallback_total_and_used_on_failure :
    ∀ text : String,
      detect_fillers none text = simple_regex_fallback text ∧
      ((simple_regex_fallback text).1.length + (simple_regex_fallback text).2.length
        = (pySplitWs text).length) ∧
      simple_regex_fallback "" = ([], []) := by
  intro text
  exact ⟨rfl, fallbackLoop_length (pySplitWs text) none, rfl⟩

/-- C7: for every non-empty request text, actions `remove` and `mark` yield
the identical processed text, namely the reconstruction of the content
tokens, while `preserve` yields the post-normalization text verbatim with
`fillers_detected` still populated from the classification. -/
theorem C7_remove_mark_identical_preserve_verbatim
    (tagger : String → Option (List (String × String))) (recon : List String → String)
    (s lang : String) (h : s ≠ "") :
    process_text tagger recon (TextField.str s) lang "remove"
      = (200,
         [("processed_text", JsonVal.s (recon (detect_fillers
             (tagger (apply_script_correction s lang)) (apply_script_correction s lang)).1)),
          ("fillers_detected", JsonVal.arr (detect_fillers
             (tagger (apply_script_correction s lang)) (apply_script_correction s lang)).2),
          ("original_text", JsonVal.s (apply_script_correction s lang))]) ∧
    process_text tagger recon (TextField.str s) lang "mark"
      = process_text tagger recon (TextField.str s) lang "remove" ∧
    process_text tagger recon (TextField.str s) lang "preserve"
      = (200,
         [("processed_text", JsonVal.s (apply_script_correction s lang)),
          ("fillers_detected", JsonVal.arr (detect_fillers
             (tagger (apply_script_correction s lang)) (apply_script_correction s lang)).2),
          ("original_text", JsonVal.s (apply_script_correction s lang))]) := by
  have hf : textFalsy (some s) = false := by
    simp [textFalsy, h]
  refine ⟨?_, ?_, ?_⟩ <;>
    simp [process_text, textValue, hf]

/-- C7 witness: a concrete non-empty request, tagged `um` as interjection,
action `remove`. -/
theorem C7_witness :
    ("um hi" : String) ≠ "" ∧
    process_text (fun _ => some [("um", "UH"), ("hi", "NN")])
        (fun l => String.intercalate " " l) (TextField.str "um hi") "fr" "remove"
      = (200, [("processed_text", JsonVal.s "hi"),
               ("fillers_detected", JsonVal.arr ["um"]),
               ("original_text", JsonVal.s "um hi")]) :=
  ⟨by decide,
   by
     have h := (C7_remove_mark_identical_preserve_verbatim
       (fun _ => some [("um", "UH"), ("hi", "NN")])
       (fun l => String.intercalate " " l) "um hi" "fr" (by decide)).1
     rw [h]
     rfl⟩

/-- C8: an empty request text short-circuits to the body with keys
`processed_text` and `fillers` (not `fillers_detected`), for every tagger,
reconstructor, language and action. -/
theorem C8_empty_input_shortcut :
    ∀ (tagger : String → Option (List (String × String))) (recon : List String → String)
      (lang action : String),
      process_text tagger recon (TextField.str "") lang action
        = (200, [("processed_text", JsonVal.s ""), ("fillers", JsonVal.arr [])]) ∧
      (process_text tagger recon (TextField.str "") lang action).2.map Prod.fst
        = ["processed_text", "fillers"] := by
  intro tagger recon lang action
  exact ⟨rfl, rfl⟩

/-- C9: on an already-cleaned text (no `UH` tags, no adjacent alphabetic
repeats, normalization a no-op, and the reconstructor inverting the
tokenizer on it), action `remove` returns the input text itself with no
fillers, so a second application of the pipeline returns the same result. -/
theorem C9_pipeline_idempotent_on_clean_text
    (tagger : String → Option (List (String × String))) (recon : List String → String)
    (text lang : String) (tagged : List (String × String))
    (hne : text ≠ "")
    (hnorm : apply_script_correction text lang = text)
    (htag : tagger text = some tagged)
    (hUH : tagsNotUH tagged = true)
    (hrep : noAdjacentRepeat tagged = true)
    (hrt : recon (tagged.map Prod.fst) = text) :
    processedOf (process_text tagger recon (TextField.str text) lang "remove") = text ∧
    process_text tagger recon
        (TextField.str
          (processedOf (process_text tagger recon (TextField.str text) lang "remove")))
        lang "remove"
      = process_text tagger recon (TextField.str text) lang "remove" ∧
    (process_text tagger recon (TextField.str text) lang "remove").2.lookup "fillers_detected"
      = some (JsonVal.arr []) := by
  have hf : textFalsy (some text) = false := by
    simp [textFalsy, hne]
  have key : process_text tagger recon (TextField.str text) lang "remove"
      = (200, [("processed_text", JsonVal.s text), ("fillers_detected", JsonVal.arr []),
               ("original_text", JsonVal.s text)]) := by
    simp only [process_text, textValue, hf, Bool.false_eq_true, if_false, Option.getD_some,
      hnorm, htag, detect_fillers]
    rw [noFiller_detectLoop tagged none hUH hrep (lastOkFor_none tagged)]
    rw [hrt]
    rfl
  refine ⟨?_, ?_, ?_⟩
  · rw [key]
    rfl
  · rw [key]
    exact key
  · rw [key]
    rfl

/-- C9 witness: a concrete clean text with a tagger and space-join
reconstructor that round-trip it. -/
theorem C9_witness :
    ("hello world" : String) ≠ "" ∧
    tagsNotUH [("hello", "NN"), ("world", "NN")] = true ∧
    noAdjacentRepeat [("hello", "NN"), ("world", "NN")] = true ∧
    processedOf (process_text (fun _ => some [("hello", "NN"), ("world", "NN")])
        (fun l => String.intercalate " " l) (TextField.str "hello world") "fr" "remove")
      = "hello world" :=
  ⟨by decide, by decide, by decide,
   (C9_pipeline_idempotent_on_clean_text (fun _ => some [("hello", "NN"), ("world", "NN")])
     (fun l => String.intercalate " " l) "hello world" "fr" [("hello", "NN"), ("world", "NN")]
     (by decide) (by decide) rfl (by decide) (by decide) (by decide)).1⟩

/-- C10: a request whose `text` field is absent or JSON null takes the
empty-input short-circuit and returns status 200 with the
`processed_text`/`fillers` body, exactly like the empty string. -/
theorem C10_absent_or_null_text_like_empty :
    ∀ (tagger : String → Option (List (String × String))) (recon : List String → String)
      (lang action : String),
      process_text tagger recon TextField.absent lang action
        = (200, [("processed_text", JsonVal.s ""), ("fillers", JsonVal.arr [])]) ∧
      process_text tagger recon TextField.null lang action
        = (200, [("processed_text", JsonVal.s ""), ("fillers", JsonVal.arr [])]) := by
  intro tagger recon lang action
  exact ⟨rfl, rfl⟩

end MedoAp2
